import Mathlib

/-!
Verification of the SafeMint batch reward-distribution server
(src/server.js) against its design specification.

The development shallowly embeds the orchestration logic of
`distributeRewardsInBatches` (src/server.js lines 553-715), the retrying
connection bootstrap `initializeWeb3` (lines 481-550) and the batch-size
resolution in `getConfig` (lines 46-89).  Remote-ledger calls (count query,
gas estimation, transaction submission, confirmation receipt) are modelled
as environment-supplied `Except` values, one per call site, so that a run
is a pure function of the environment.  Machine integers are modelled as
`Nat` (all quantities in the source are non-negative BigInt/Number values)
and JavaScript BigInt division, which truncates, is `Nat` division.
-/

namespace SafeMintServer

/-- Inclusive index interval covered by one `distributeRewardsToAll` call,
with the source's variable names `startIndex`/`endIndex`
(src/server.js lines 596-600). -/
structure BatchRange where
  startIndex : Nat
  endIndex : Nat
deriving DecidableEq

/-- Number of batches: `Math.ceil(Number(totalUsers) / BATCH_SIZE)`
(src/server.js line 586), as exact ceiling division on naturals. -/
def totalBatchesOf (totalUsers batchSize : Nat) : Nat :=
  (totalUsers + batchSize - 1) / batchSize

/-- The range of batch `batchIndex` (src/server.js lines 596-600):
`startIndex = batchIndex * BATCH_SIZE`,
`endIndex = Math.min(startIndex + BATCH_SIZE - 1, Number(totalUsers) - 1)`. -/
def rangeOf (batchSize totalUsers batchIndex : Nat) : BatchRange :=
  { startIndex := batchIndex * batchSize
    endIndex := min (batchIndex * batchSize + batchSize - 1) (totalUsers - 1) }

/-- The ordered partition the batch loop iterates over
(src/server.js lines 586 and 595-600). -/
def plan (totalUsers batchSize : Nat) : List BatchRange :=
  (List.range (totalBatchesOf totalUsers batchSize)).map (rangeOf batchSize totalUsers)

/-- Outcomes of the remote calls made while executing one batch
(src/server.js lines 606-667): the gas estimation (`estimateGas`, raced
against a 10 s timeout), the transaction submission (raced against 15 s),
and the confirmation (`tx.wait()`, raced against 300 s) yielding
`receipt.status`.  `Except.error` covers both a rejected call and a
timeout, carrying the error message. -/
structure BatchEnv where
  gasEstimate : Except String Nat
  submitTx : Except String Unit
  receiptStatus : Except String Nat

/-- Status of one batch: the loop either counts it in `successCount` or in
`failureCount` with an error message pushed to `failedBatches`
(src/server.js lines 591-679). -/
inductive BatchStatus where
  | success
  | failed (error : String)
deriving DecidableEq

/-- Result of executing one batch, instrumented for verification:
`submitCalls` counts how many times `distributeRewardsToAll` was invoked
for the range, `gasLimit` is the cost ceiling passed with the submission
(`(gasEstimate * 120n) / 100n`, src/server.js line 631), and
`reachedRateLimit` records whether control reached the rate-limiting wait
at lines 669-673, which only happens when no error was thrown (a gas
estimation failure leaves via `continue` at line 625, and a thrown
submission/confirmation error leaves via the `catch` at line 674). -/
structure BatchResult where
  status : BatchStatus
  submitCalls : Nat
  gasLimit : Option Nat
  reachedRateLimit : Bool
deriving DecidableEq

/-- One iteration of the batch loop body (src/server.js lines 602-679). -/
def executeBatch (b : BatchEnv) : BatchResult :=
  match b.gasEstimate with
  | Except.error e => ⟨BatchStatus.failed e, 0, none, false⟩
  | Except.ok g =>
    let limit := g * 120 / 100
    match b.submitTx with
    | Except.error e => ⟨BatchStatus.failed e, 1, some limit, false⟩
    | Except.ok _ =>
      match b.receiptStatus with
      | Except.error e => ⟨BatchStatus.failed e, 1, some limit, false⟩
      | Except.ok status =>
        if status = 1 then ⟨BatchStatus.success, 1, some limit, true⟩
        else ⟨BatchStatus.failed "Transaction failed", 1, some limit, true⟩

/-- Environment of one run of `distributeRewardsInBatches`:
`web3Initialized` is the truthiness of `provider && contract && wallet`
(line 558), `getUSersLengh` is the user-count query (lines 567-572, source
spelling kept), `batchSize` is the configured `BATCH_SIZE`, and `batches`
gives the remote-call outcomes for each batch index. -/
structure Env where
  web3Initialized : Bool
  getUSersLengh : Except String Nat
  batchSize : Nat
  batches : Nat → BatchEnv

/-- Entry of the `failedBatches` array: the code pushes
`{ batch: batchIndex + 1, error: message }` (src/server.js lines 620-623
and 662-665 and 677) — a 1-based batch number and a message, not the
range bounds. -/
structure FailedBatch where
  batch : Nat
  error : String
deriving DecidableEq

/-- Mutable state of the batch loop (src/server.js lines 591-593),
instrumented with the attempt count, the number of submission calls
issued, and the list of (batchIndex, milliseconds) rate-limiting waits
performed. -/
structure LoopState where
  successCount : Nat
  failureCount : Nat
  failedBatches : List FailedBatch
  attempted : Nat
  submitCalls : Nat
  waits : List (Nat × Nat)
deriving DecidableEq

/-- Initial loop state (src/server.js lines 591-593). -/
def initialState : LoopState := ⟨0, 0, [], 0, 0, []⟩

/-- One iteration of the batch loop acting on the loop state
(src/server.js lines 595-680): classify the batch, update the counters
and `failedBatches`, and perform the 5000 ms rate-limiting wait when the
iteration reached it and the batch is not the last. -/
def batchStep (env : Env) (totalBatches i : Nat) (st : LoopState) : LoopState :=
  let r := executeBatch (env.batches i)
  let st1 : LoopState :=
    { st with attempted := st.attempted + 1, submitCalls := st.submitCalls + r.submitCalls }
  let st2 : LoopState :=
    match r.status with
    | BatchStatus.success => { st1 with successCount := st1.successCount + 1 }
    | BatchStatus.failed e =>
      { st1 with failureCount := st1.failureCount + 1,
                 failedBatches := st1.failedBatches ++ [⟨i + 1, e⟩] }
  if r.reachedRateLimit && decide (i < totalBatches - 1) then
    { st2 with waits := st2.waits ++ [(i, 5000)] }
  else st2

/-- The batch loop over a list of batch indices (src/server.js line 595). -/
def runBatches (env : Env) (totalBatches : Nat) : List Nat → LoopState → LoopState
  | [], st => st
  | i :: rest, st => runBatches env totalBatches rest (batchStep env totalBatches i st)

/-- Final loop state of a run over `n` users. -/
def stOf (env : Env) (n : Nat) : LoopState :=
  runBatches env (totalBatchesOf n env.batchSize) (List.range (totalBatchesOf n env.batchSize))
    initialState

/-- The summary message template of src/server.js line 688. -/
def mkMessage (successCount totalBatches : Nat) : String :=
  toString successCount ++ "/" ++ toString totalBatches ++ " batches completed successfully"

/-- The run summary object built at src/server.js lines 682-689. -/
structure Summary where
  success : Bool
  totalBatches : Nat
  successCount : Nat
  failureCount : Nat
  failedBatches : List FailedBatch
  message : String
deriving DecidableEq

/-- Builds the summary from the final loop state (src/server.js lines
682-689; `success: successCount > 0`). -/
def mkSummary (st : LoopState) (totalBatches : Nat) : Summary :=
  ⟨decide (0 < st.successCount), totalBatches, st.successCount, st.failureCount,
   st.failedBatches, mkMessage st.successCount totalBatches⟩

/-- The summary of a run over `n` users. -/
def runSummaryOf (env : Env) (n : Nat) : Summary :=
  mkSummary (stOf env n) (totalBatchesOf n env.batchSize)

/-- The three shapes of value `distributeRewardsInBatches` resolves with:
the zero-users early return `{ success: true, message: "No users to
process" }` (line 582), the full summary (line 706), and the outer-catch
return `{ success: false, error, message: "Distribution process failed
completely" }` (lines 709-713). -/
inductive RunResult where
  | noUsers
  | summary (s : Summary)
  | fatal (error : String)
deriving DecidableEq

/-- The `success` field of the resolved object (lines 582, 683, 710). -/
def RunResult.successFlag : RunResult → Bool
  | RunResult.noUsers => true
  | RunResult.summary s => s.success
  | RunResult.fatal _ => false

/-- The `message` field of the resolved object (lines 582, 688, 712). -/
def RunResult.messageOf : RunResult → String
  | RunResult.noUsers => "No users to process"
  | RunResult.summary s => s.message
  | RunResult.fatal _ => "Distribution process failed completely"

/-- A run's result together with the verification instrumentation. -/
structure RunTrace where
  result : RunResult
  attempted : Nat
  submitCalls : Nat
  waits : List (Nat × Nat)
deriving DecidableEq

/-- The body of the outer `try` of `distributeRewardsInBatches`
(src/server.js lines 554-706).  `Except.error` models a thrown exception
reaching the outer `catch`: the precondition check at lines 558-562
throws when Web3 is not initialized, and the count-query wrapper at lines
566-576 rethrows `Contract connection failed: ...`.  The batch loop never
throws — every per-batch error is absorbed by the inner catches. -/
def runInner (env : Env) : Except String RunTrace :=
  if env.web3Initialized then
    match env.getUSersLengh with
    | Except.error e => Except.error ("Contract connection failed: " ++ e)
    | Except.ok totalUsers =>
      if totalUsers = 0 then Except.ok ⟨RunResult.noUsers, 0, 0, []⟩
      else
        Except.ok ⟨RunResult.summary (runSummaryOf env totalUsers),
                   (stOf env totalUsers).attempted,
                   (stOf env totalUsers).submitCalls,
                   (stOf env totalUsers).waits⟩
  else Except.error "Web3 not initialized. Cannot proceed with distribution."

/-- `distributeRewardsInBatches` (src/server.js lines 553-715): the outer
`catch` converts any thrown error into the structured failure object, so
the caller always receives a `RunTrace`. -/
def distributeRewardsInBatches (env : Env) : RunTrace :=
  match runInner env with
  | Except.ok t => t
  | Except.error e => ⟨RunResult.fatal e, 0, 0, []⟩

/-- Boolean check that the inner computation completed without a thrown
error escaping to the outer catch. -/
def innerOk (env : Env) : Bool :=
  match runInner env with
  | Except.ok _ => true
  | Except.error _ => false

/-- Status of one batch index in a run. -/
def statusOf (env : Env) (i : Nat) : BatchStatus :=
  (executeBatch (env.batches i)).status

/-- Whether batch `i` succeeded. -/
def isSuccessB (env : Env) (i : Nat) : Bool :=
  match statusOf env i with
  | BatchStatus.success => true
  | BatchStatus.failed _ => false

/-- The `failedBatches` entry contributed by batch `i`, if any. -/
def failEntry (env : Env) (i : Nat) : Option FailedBatch :=
  match statusOf env i with
  | BatchStatus.success => none
  | BatchStatus.failed e => some ⟨i + 1, e⟩

/-- Whether the iteration for batch `i` performs the rate-limiting wait
(src/server.js lines 669-673). -/
def waitedB (env : Env) (totalBatches i : Nat) : Bool :=
  (executeBatch (env.batches i)).reachedRateLimit && decide (i < totalBatches - 1)

/-- Number of successful batches among the first `n`. -/
def countSuccesses (env : Env) (n : Nat) : Nat :=
  ((List.range n).filter (fun i => isSuccessB env i)).length

/-- Number of failed batches among the first `n`. -/
def countFailures (env : Env) (n : Nat) : Nat :=
  ((List.range n).filter (fun i => !isSuccessB env i)).length

/-- Run-level classification of src/server.js lines 698-704:
all batches succeeded, partial success, or all failed. -/
inductive RunStatus where
  | allSucceeded
  | partialSuccess
  | allFailed
deriving DecidableEq

/-- The classification applied to a summary (src/server.js lines 698-704:
`successCount === totalBatches`, then `successCount > 0`, else all
failed). -/
def runStatus (s : Summary) : RunStatus :=
  if s.successCount = s.totalBatches then RunStatus.allSucceeded
  else if 0 < s.successCount then RunStatus.partialSuccess
  else RunStatus.allFailed

/-- Batch-size resolution in `getConfig` (src/server.js lines 55 and
62-67): `parseInt(config.BATCH_SIZE) || 100` — `none` models an
unparseable value (`NaN`), and `0` is falsy — followed by the range check
that replaces any value outside `[1, 1000]` with the default `100` after
a console warning. -/
def resolveBatchSize (parsed : Option Int) : Int :=
  let b : Int :=
    match parsed with
    | none => 100
    | some v => if v = 0 then 100 else v
  if b < 1 ∨ b > 1000 then 100 else b

/-- `getConfig`'s batch-size outcome as an `Except`, making the
specification's claimed `InvalidConfiguration` failure mode statable:
the source never throws for a bad batch size (its `catch` at lines 77-88
also just returns defaults), so this is always `Except.ok`. -/
def getConfigBatchSize (parsed : Option Int) : Except String Int :=
  Except.ok (resolveBatchSize parsed)

/-- Follows the spec's words for the Batch Executor safety margin:
the cost used for submission is `ceil(estimatedCost * 1.20)`, i.e.
`⌈120 e / 100⌉` over the naturals.  Stated for comparison with the
source's `(gasEstimate * 120n) / 100n`. -/
def specBufferedCost (e : Nat) : Nat :=
  (e * 120 + 99) / 100

/-- Result of the connection bootstrap `initializeWeb3`, instrumented:
whether it returned `true`, how many attempts were made, and the backoff
delays (ms) slept between attempts. -/
structure InitResult where
  connected : Bool
  attempts : Nat
  delays : List Nat
deriving DecidableEq

/-- The retry recursion of `initializeWeb3` (src/server.js lines 481-550).
`remaining` stands for `maxRetries - retryCount`, so `remaining = 0` is
the last allowed attempt (`retryCount < maxRetries` fails and the
function returns `false`).  `outcomes r` tells whether the attempt at
`retryCount = r` succeeds; a failed attempt with retries left sleeps
`Math.pow(2, retryCount) * 1000` ms (line 536) and recurses with
`retryCount + 1` (line 539). -/
def initWeb3Go (outcomes : Nat → Bool) (retryCount : Nat) : Nat → InitResult
  | 0 => if outcomes retryCount then ⟨true, 1, []⟩ else ⟨false, 1, []⟩
  | remaining + 1 =>
    if outcomes retryCount then ⟨true, 1, []⟩
    else
      let rest := initWeb3Go outcomes (retryCount + 1) remaining
      ⟨rest.connected, rest.attempts + 1, 2 ^ retryCount * 1000 :: rest.delays⟩

/-- `initializeWeb3(0, maxRetries)` — the entry call at src/server.js line
999 uses the default `maxRetries = 3`. -/
def initWeb3 (outcomes : Nat → Bool) (maxRetries : Nat) : InitResult :=
  initWeb3Go outcomes 0 maxRetries

/-- A batch whose three remote calls all succeed with receipt status 1. -/
def successBatch : BatchEnv := ⟨Except.ok 21000, Except.ok (), Except.ok 1⟩

/-- A batch whose gas estimation fails. -/
def estimFailBatch : BatchEnv := ⟨Except.error "boom", Except.ok (), Except.ok 1⟩

/-- 250 users, batch size 100, second batch fails gas estimation:
outcomes Success, Failed, Success. -/
def envMixed : Env :=
  ⟨true, Except.ok 250, 100, fun i => if i = 1 then estimFailBatch else successBatch⟩

/-- 200 users, batch size 100, both batches fail gas estimation. -/
def envEstimFail : Env :=
  ⟨true, Except.ok 200, 100, fun _ => estimFailBatch⟩

/-- Zero users reported by the count query. -/
def envZero : Env := ⟨true, Except.ok 0, 100, fun _ => successBatch⟩

/-- Web3 never initialized. -/
def envNoWeb3 : Env := ⟨false, Except.ok 250, 100, fun _ => successBatch⟩

/-- The count query itself fails. -/
def envCountFail : Env := ⟨true, Except.error "timeout", 100, fun _ => successBatch⟩

/-! Helper lemmas about the Range Planner. -/

theorem lt_totalBatchesOf_iff (total B i : Nat) (hB : 0 < B) :
    i < totalBatchesOf total B ↔ i * B < total := by
  unfold totalBatchesOf
  rcases Nat.eq_zero_or_pos total with h0 | hpos
  · subst h0
    have hlt : B - 1 < B := by omega
    rw [Nat.zero_add, Nat.div_eq_of_lt hlt]
    constructor
    · intro h; exact absurd h (Nat.not_lt_zero i)
    · intro h; exact absurd h (Nat.not_lt_zero _)
  · have hrw : total + B - 1 = (total - 1) + B := by omega
    rw [hrw, Nat.add_div_right _ hB, Nat.lt_succ_iff, Nat.le_div_iff_mul_le hB]
    omega

theorem plan_length (total B : Nat) :
    (plan total B).length = totalBatchesOf total B := by
  simp [plan]

theorem plan_get (total B i : Nat) (h : i < (plan total B).length) :
    (plan total B).get ⟨i, h⟩ = rangeOf B total i := by
  simp [plan]

theorem totalBatchesOf_pos_iff (total B : Nat) (hB : 0 < B) :
    0 < totalBatchesOf total B ↔ 0 < total := by
  have h := lt_totalBatchesOf_iff total B 0 hB
  simpa using h

theorem rangeOf_endIndex_eq (total B i : Nat)
    (h : (i + 1) * B ≤ total) :
    (rangeOf B total i).endIndex = i * B + B - 1 := by
  unfold rangeOf
  have hmul : (i + 1) * B = i * B + B := Nat.succ_mul i B
  simp only
  exact Nat.min_eq_left (by omega)

theorem plan_mem_iff (total B : Nat) (r : BatchRange) :
    r ∈ plan total B ↔ ∃ i, i < totalBatchesOf total B ∧ r = rangeOf B total i := by
  simp only [plan, List.mem_map, List.mem_range]
  constructor
  · rintro ⟨i, hi, hr⟩; exact ⟨i, hi, hr.symm⟩
  · rintro ⟨i, hi, hr⟩; exact ⟨i, hi, hr.symm⟩

/-- C1: the range partition of a run has `ceil(totalCount / batchSize)`
ranges, range `i` being `[i*batchSize, min((i+1)*batchSize - 1,
totalCount-1)]`; the ranges are contiguous, ordered and non-overlapping,
their union is exactly `[0, totalCount-1]`, and the partition is empty
iff `totalCount = 0`. -/
theorem c1_range_partition (totalCount batchSize : Nat) (hB : 0 < batchSize) :
    (plan totalCount batchSize).length = (totalCount + batchSize - 1) / batchSize
    ∧ (∀ i, (h : i < (plan totalCount batchSize).length) →
        (plan totalCount batchSize).get ⟨i, h⟩ = rangeOf batchSize totalCount i)
    ∧ (∀ i, i < (plan totalCount batchSize).length →
        rangeOf batchSize totalCount i =
          ⟨i * batchSize, min ((i + 1) * batchSize - 1) (totalCount - 1)⟩)
    ∧ (∀ i, i + 1 < (plan totalCount batchSize).length →
        (rangeOf batchSize totalCount (i + 1)).startIndex =
          (rangeOf batchSize totalCount i).endIndex + 1)
    ∧ (∀ i j, i < j → j < (plan totalCount batchSize).length →
        (rangeOf batchSize totalCount i).endIndex <
          (rangeOf batchSize totalCount j).startIndex)
    ∧ (∀ k, k < totalCount ↔
        ∃ r ∈ plan totalCount batchSize, r.startIndex ≤ k ∧ k ≤ r.endIndex)
    ∧ (plan totalCount batchSize = [] ↔ totalCount = 0) := by
  refine ⟨plan_length totalCount batchSize, plan_get totalCount batchSize, ?_, ?_, ?_, ?_, ?_⟩
  · intro i _
    unfold rangeOf
    have hmul : (i + 1) * batchSize = i * batchSize + batchSize := Nat.succ_mul i batchSize
    rw [hmul]
  · intro i h
    rw [plan_length] at h
    have hle : (i + 1) * batchSize < totalCount :=
      (lt_totalBatchesOf_iff totalCount batchSize (i + 1) hB).mp h
    have hend := rangeOf_endIndex_eq totalCount batchSize i (Nat.le_of_lt hle)
    have hmul : (i + 1) * batchSize = i * batchSize + batchSize := Nat.succ_mul i batchSize
    unfold rangeOf at hend ⊢
    simp only at hend ⊢
    omega
  · intro i j hij hj
    rw [plan_length] at hj
    have hjB : (i + 1) * batchSize ≤ j * batchSize :=
      Nat.mul_le_mul_right batchSize hij
    have hmul : (i + 1) * batchSize = i * batchSize + batchSize := Nat.succ_mul i batchSize
    unfold rangeOf
    simp only
    have hminle : min (i * batchSize + batchSize - 1) (totalCount - 1)
        ≤ i * batchSize + batchSize - 1 := Nat.min_le_left _ _
    omega
  · intro k
    constructor
    · intro hk
      have hpos : 0 < totalCount := Nat.lt_of_le_of_lt (Nat.zero_le k) hk
      refine ⟨rangeOf batchSize totalCount (k / batchSize), ?_, ?_, ?_⟩
      · rw [plan_mem_iff]
        refine ⟨k / batchSize, ?_, rfl⟩
        rw [lt_totalBatchesOf_iff totalCount batchSize _ hB]
        exact Nat.lt_of_le_of_lt (Nat.div_mul_le_self k batchSize) hk
      · exact Nat.div_mul_le_self k batchSize
      · unfold rangeOf
        simp only
        have hdm : k / batchSize * batchSize + k % batchSize = k := Nat.div_add_mod' k batchSize
        have hmod : k % batchSize < batchSize := Nat.mod_lt k hB
        exact Nat.le_min.mpr ⟨by omega, by omega⟩
    · rintro ⟨r, hr, h1, h2⟩
      rw [plan_mem_iff] at hr
      obtain ⟨i, hi, hieq⟩ := hr
      have hpos : 0 < totalCount := by
        rw [← totalBatchesOf_pos_iff totalCount batchSize hB]
        exact Nat.lt_of_le_of_lt (Nat.zero_le i) hi
      subst hieq
      unfold rangeOf at h2
      simp only at h2
      have hmin : min (i * batchSize + batchSize - 1) (totalCount - 1) ≤ totalCount - 1 :=
        Nat.min_le_right _ _
      omega
  · have hlen : plan totalCount batchSize = [] ↔ (plan totalCount batchSize).length = 0 :=
      List.length_eq_zero.symm
    rw [hlen, plan_length]
    have h := totalBatchesOf_pos_iff totalCount batchSize hB
    omega

/-- Witness for C1 at totalCount 250, batchSize 100. -/
theorem c1_range_partition_witness :
    0 < 100 ∧ (plan 250 100).length = (250 + 100 - 1) / 100 :=
  ⟨by decide, (c1_range_partition 250 100 (by decide)).1⟩

/-! Helper lemmas about the batch loop. -/

theorem batchStep_successCount (env : Env) (n i : Nat) (st : LoopState) :
    (batchStep env n i st).successCount =
      st.successCount + (if isSuccessB env i then 1 else 0) := by
  unfold batchStep isSuccessB statusOf
  cases hs : (executeBatch (env.batches i)).status <;>
    by_cases hw : ((executeBatch (env.batches i)).reachedRateLimit
        && decide (i < n - 1)) = true <;>
    simp [hs, hw]

theorem batchStep_failureCount (env : Env) (n i : Nat) (st : LoopState) :
    (batchStep env n i st).failureCount =
      st.failureCount + (if isSuccessB env i then 0 else 1) := by
  unfold batchStep isSuccessB statusOf
  cases hs : (executeBatch (env.batches i)).status <;>
    by_cases hw : ((executeBatch (env.batches i)).reachedRateLimit
        && decide (i < n - 1)) = true <;>
    simp [hs, hw]

theorem batchStep_failedBatches (env : Env) (n i : Nat) (st : LoopState) :
    (batchStep env n i st).failedBatches =
      st.failedBatches ++ (failEntry env i).toList := by
  unfold batchStep failEntry statusOf
  cases hs : (executeBatch (env.batches i)).status <;>
    by_cases hw : ((executeBatch (env.batches i)).reachedRateLimit
        && decide (i < n - 1)) = true <;>
    simp [hs, hw]

theorem batchStep_attempted (env : Env) (n i : Nat) (st : LoopState) :
    (batchStep env n i st).attempted = st.attempted + 1 := by
  unfold batchStep
  cases hs : (executeBatch (env.batches i)).status <;>
    by_cases hw : ((executeBatch (env.batches i)).reachedRateLimit
        && decide (i < n - 1)) = true <;>
    simp [hs, hw]

theorem batchStep_submitCalls (env : Env) (n i : Nat) (st : LoopState) :
    (batchStep env n i st).submitCalls =
      st.submitCalls + (executeBatch (env.batches i)).submitCalls := by
  unfold batchStep
  cases hs : (executeBatch (env.batches i)).status <;>
    by_cases hw : ((executeBatch (env.batches i)).reachedRateLimit
        && decide (i < n - 1)) = true <;>
    simp [hs, hw]

theorem batchStep_waits (env : Env) (n i : Nat) (st : LoopState) :
    (batchStep env n i st).waits =
      st.waits ++ (if waitedB env n i then [(i, 5000)] else []) := by
  unfold batchStep waitedB
  cases hs : (executeBatch (env.batches i)).status <;>
    by_cases hw : ((executeBatch (env.batches i)).reachedRateLimit
        && decide (i < n - 1)) = true <;>
    simp [hs, hw]

theorem runBatches_successCount (env : Env) (n : Nat) (L : List Nat) (st : LoopState) :
    (runBatches env n L st).successCount =
      st.successCount + (L.filter (fun i => isSuccessB env i)).length := by
  induction L generalizing st with
  | nil => simp [runBatches]
  | cons i rest ih =>
    rw [runBatches, ih, batchStep_successCount, List.filter_cons]
    by_cases h : isSuccessB env i <;> simp [h] <;> omega

theorem runBatches_failureCount (env : Env) (n : Nat) (L : List Nat) (st : LoopState) :
    (runBatches env n L st).failureCount =
      st.failureCount + (L.filter (fun i => !isSuccessB env i)).length := by
  induction L generalizing st with
  | nil => simp [runBatches]
  | cons i rest ih =>
    rw [runBatches, ih, batchStep_failureCount, List.filter_cons]
    by_cases h : isSuccessB env i <;> simp [h] <;> omega

theorem runBatches_failedBatches (env : Env) (n : Nat) (L : List Nat) (st : LoopState) :
    (runBatches env n L st).failedBatches =
      st.failedBatches ++ L.filterMap (failEntry env) := by
  induction L generalizing st with
  | nil => simp [runBatches]
  | cons i rest ih =>
    rw [runBatches, ih, batchStep_failedBatches, List.filterMap_cons]
    cases h : failEntry env i <;> simp [h]

theorem runBatches_attempted (env : Env) (n : Nat) (L : List Nat) (st : LoopState) :
    (runBatches env n L st).attempted = st.attempted + L.length := by
  induction L generalizing st with
  | nil => simp [runBatches]
  | cons i rest ih =>
    rw [runBatches, ih, batchStep_attempted]
    simp [Nat.add_assoc, Nat.add_comm 1 rest.length]

theorem runBatches_submitCalls (env : Env) (n : Nat) (L : List Nat) (st : LoopState) :
    (runBatches env n L st).submitCalls =
      st.submitCalls + (L.map (fun i => (executeBatch (env.batches i)).submitCalls)).sum := by
  induction L generalizing st with
  | nil => simp [runBatches]
  | cons i rest ih =>
    rw [runBatches, ih, batchStep_submitCalls]
    simp [Nat.add_assoc]

theorem runBatches_waits (env : Env) (n : Nat) (L : List Nat) (st : LoopState) :
    (runBatches env n L st).waits =
      st.waits ++ (L.filter (fun i => waitedB env n i)).map (fun i => (i, 5000)) := by
  induction L generalizing st with
  | nil => simp [runBatches]
  | cons i rest ih =>
    rw [runBatches, ih, batchStep_waits, List.filter_cons]
    by_cases h : waitedB env n i <;> simp [h]

/-! Helper lemmas about lists of batch indices. -/

theorem lengthFilterEqLengthIff {α : Type} (p : α → Bool) (L : List α) :
    (L.filter p).length = L.length ↔ ∀ a ∈ L, p a = true := by
  induction L with
  | nil => simp
  | cons x rest ih =>
    rw [List.filter_cons]
    by_cases h : p x = true
    · simp [h, ih]
    · have hle : (rest.filter p).length ≤ rest.length := List.length_filter_le p rest
      simp only [h]
      constructor
      · intro hlen
        exfalso
        simp at hlen
        omega
      · intro hall
        exact absurd (hall x (List.mem_cons_self x rest)) h

theorem lengthFilterEqZeroIff {α : Type} (p : α → Bool) (L : List α) :
    (L.filter p).length = 0 ↔ ∀ a ∈ L, p a = false := by
  rw [List.length_eq_zero, List.filter_eq_nil_iff]
  simp

theorem lengthFilterAddNot {α : Type} (p : α → Bool) (L : List α) :
    (L.filter p).length + (L.filter (fun a => !p a)).length = L.length := by
  induction L with
  | nil => simp
  | cons x rest ih =>
    rw [List.filter_cons, List.filter_cons]
    by_cases h : p x = true <;> simp [h] <;> omega

theorem countSuccesses_add_countFailures (env : Env) (n : Nat) :
    countSuccesses env n + countFailures env n = n := by
  unfold countSuccesses countFailures
  rw [lengthFilterAddNot]
  simp

theorem lengthFilterMapFailEntry (env : Env) (L : List Nat) :
    (L.filterMap (failEntry env)).length =
      (L.filter (fun i => !isSuccessB env i)).length := by
  induction L with
  | nil => simp
  | cons i rest ih =>
    cases h : statusOf env i with
    | success =>
      have hfe : failEntry env i = none := by unfold failEntry; rw [h]
      have his : isSuccessB env i = true := by unfold isSuccessB; rw [h]
      rw [List.filterMap_cons, List.filter_cons]
      simp only [hfe, his]
      simpa using ih
    | failed e =>
      have hfe : failEntry env i = some ⟨i + 1, e⟩ := by unfold failEntry; rw [h]
      have his : isSuccessB env i = false := by unfold isSuccessB; rw [h]
      rw [List.filterMap_cons, List.filter_cons]
      simp only [hfe, his]
      simpa using ih

/-! Characterization of a full run. -/

theorem stOf_successCount (env : Env) (n : Nat) :
    (stOf env n).successCount = countSuccesses env (totalBatchesOf n env.batchSize) := by
  unfold stOf countSuccesses
  rw [runBatches_successCount]
  simp [initialState]

theorem stOf_failureCount (env : Env) (n : Nat) :
    (stOf env n).failureCount = countFailures env (totalBatchesOf n env.batchSize) := by
  unfold stOf countFailures
  rw [runBatches_failureCount]
  simp [initialState]

theorem stOf_failedBatches (env : Env) (n : Nat) :
    (stOf env n).failedBatches =
      (List.range (totalBatchesOf n env.batchSize)).filterMap (failEntry env) := by
  unfold stOf
  rw [runBatches_failedBatches]
  rfl

theorem stOf_attempted (env : Env) (n : Nat) :
    (stOf env n).attempted = totalBatchesOf n env.batchSize := by
  unfold stOf
  rw [runBatches_attempted]
  simp [initialState]

theorem stOf_waits (env : Env) (n : Nat) :
    (stOf env n).waits =
      ((List.range (totalBatchesOf n env.batchSize)).filter
        (fun i => waitedB env (totalBatchesOf n env.batchSize) i)).map
        (fun i => (i, 5000)) := by
  unfold stOf
  rw [runBatches_waits]
  rfl

theorem distribute_ok (env : Env) (n : Nat)
    (hw : env.web3Initialized = true) (hc : env.getUSersLengh = Except.ok n)
    (hn : 0 < n) :
    distributeRewardsInBatches env =
      ⟨RunResult.summary (runSummaryOf env n), (stOf env n).attempted,
       (stOf env n).submitCalls, (stOf env n).waits⟩ := by
  unfold distributeRewardsInBatches runInner
  rw [hw, hc]
  have hne : ¬ (n = 0) := by omega
  simp [hne]

theorem distribute_zero (env : Env)
    (hw : env.web3Initialized = true) (hc : env.getUSersLengh = Except.ok 0) :
    distributeRewardsInBatches env = ⟨RunResult.noUsers, 0, 0, []⟩ := by
  unfold distributeRewardsInBatches runInner
  rw [hw, hc]
  simp

theorem isSuccessB_iff (env : Env) (i : Nat) :
    isSuccessB env i = true ↔ statusOf env i = BatchStatus.success := by
  unfold isSuccessB
  cases h : statusOf env i <;> simp

theorem runStatus_allSucceeded_iff_counts (s : Summary) :
    runStatus s = RunStatus.allSucceeded ↔ s.successCount = s.totalBatches := by
  unfold runStatus
  split_ifs with h1 h2 <;> simp [h1]

theorem runStatus_allFailed_iff_counts (s : Summary) :
    runStatus s = RunStatus.allFailed ↔
      ¬ (s.successCount = s.totalBatches) ∧ s.successCount = 0 := by
  unfold runStatus
  split_ifs with h1 h2 <;> simp [h1] <;> omega

theorem runStatus_partial_iff_counts (s : Summary) :
    runStatus s = RunStatus.partialSuccess ↔
      ¬ (s.successCount = s.totalBatches) ∧ 0 < s.successCount := by
  unfold runStatus
  split_ifs with h1 h2
  · simp [h1]
  · simp [h1, h2]
  · simp [h1, h2]

theorem countSuccesses_eq_iff (env : Env) (n : Nat) :
    countSuccesses env n = n ↔ ∀ i, i < n → statusOf env i = BatchStatus.success := by
  unfold countSuccesses
  have h := lengthFilterEqLengthIff (fun i => isSuccessB env i) (List.range n)
  rw [List.length_range] at h
  rw [h]
  constructor
  · intro hall i hi
    exact (isSuccessB_iff env i).mp (hall i (List.mem_range.mpr hi))
  · intro hall i hi
    exact (isSuccessB_iff env i).mpr (hall i (List.mem_range.mp hi))

theorem countSuccesses_zero_iff (env : Env) (n : Nat) :
    countSuccesses env n = 0 ↔ ∀ i, i < n → statusOf env i ≠ BatchStatus.success := by
  unfold countSuccesses
  rw [lengthFilterEqZeroIff]
  constructor
  · intro hall i hi hsucc
    have := hall i (List.mem_range.mpr hi)
    rw [(isSuccessB_iff env i).mpr hsucc] at this
    simp at this
  · intro hall i hi
    cases hb : isSuccessB env i
    · rfl
    · exact absurd ((isSuccessB_iff env i).mp hb) (hall i (List.mem_range.mp hi))

theorem countSuccesses_pos_iff (env : Env) (n : Nat) :
    0 < countSuccesses env n ↔ ∃ i, i < n ∧ statusOf env i = BatchStatus.success := by
  rcases Nat.eq_zero_or_pos (countSuccesses env n) with h0 | hpos
  · rw [h0]
    simp only [Nat.lt_irrefl, false_iff]
    rw [countSuccesses_zero_iff] at h0
    rintro ⟨i, hi, hs⟩
    exact h0 i hi hs
  · simp only [hpos, true_iff]
    by_contra hnone
    push_neg at hnone
    have : countSuccesses env n = 0 := by
      rw [countSuccesses_zero_iff]
      exact hnone
    omega

theorem totalBatchesOf_pos (env : Env) (n : Nat) (hn : 0 < n) (hB : 0 < env.batchSize) :
    0 < totalBatchesOf n env.batchSize :=
  (totalBatchesOf_pos_iff n env.batchSize hB).mpr hn

/-- C2 (amended): with a mix of successes and failures the run is classified
`PartialSuccess`, with `successCount` the number of successful batches and
`failureCount` the number of failed batches; `AllSucceeded` holds iff every
outcome is `Success` and `AllFailed` iff every outcome is `Failed`; each
failed batch is reported in the summary by its 1-based batch number
(`batchIndex + 1`) together with the error message — not by its range
bounds. -/
theorem c2_summary_classification (env : Env) (n : Nat)
    (hw : env.web3Initialized = true) (hc : env.getUSersLengh = Except.ok n)
    (hn : 0 < n) (hB : 0 < env.batchSize) :
    (distributeRewardsInBatches env).result = RunResult.summary (runSummaryOf env n)
    ∧ (runSummaryOf env n).successCount = countSuccesses env (totalBatchesOf n env.batchSize)
    ∧ (runSummaryOf env n).failureCount = countFailures env (totalBatchesOf n env.batchSize)
    ∧ (runSummaryOf env n).failedBatches =
        (List.range (totalBatchesOf n env.batchSize)).filterMap (failEntry env)
    ∧ (runStatus (runSummaryOf env n) = RunStatus.allSucceeded ↔
        ∀ i, i < totalBatchesOf n env.batchSize → statusOf env i = BatchStatus.success)
    ∧ (runStatus (runSummaryOf env n) = RunStatus.allFailed ↔
        ∀ i, i < totalBatchesOf n env.batchSize → statusOf env i ≠ BatchStatus.success)
    ∧ (runStatus (runSummaryOf env n) = RunStatus.partialSuccess ↔
        ((∃ i, i < totalBatchesOf n env.batchSize ∧ statusOf env i = BatchStatus.success)
          ∧ ∃ j, j < totalBatchesOf n env.batchSize ∧ statusOf env j ≠ BatchStatus.success))
    ∧ ∀ e ∈ (runSummaryOf env n).failedBatches,
        ∃ i, i < totalBatchesOf n env.batchSize ∧ e.batch = i + 1
          ∧ statusOf env i = BatchStatus.failed e.error := by
  have htb : 0 < totalBatchesOf n env.batchSize := totalBatchesOf_pos env n hn hB
  have hsc : (runSummaryOf env n).successCount
      = countSuccesses env (totalBatchesOf n env.batchSize) := by
    unfold runSummaryOf mkSummary
    exact stOf_successCount env n
  have hfc : (runSummaryOf env n).failureCount
      = countFailures env (totalBatchesOf n env.batchSize) := by
    unfold runSummaryOf mkSummary
    exact stOf_failureCount env n
  have hfb : (runSummaryOf env n).failedBatches
      = (List.range (totalBatchesOf n env.batchSize)).filterMap (failEntry env) := by
    unfold runSummaryOf mkSummary
    exact stOf_failedBatches env n
  have htbf : (runSummaryOf env n).totalBatches = totalBatchesOf n env.batchSize := rfl
  have hne : ¬ (countSuccesses env (totalBatchesOf n env.batchSize)
        = totalBatchesOf n env.batchSize) ↔
      ∃ j, j < totalBatchesOf n env.batchSize ∧ statusOf env j ≠ BatchStatus.success := by
    rw [countSuccesses_eq_iff]
    push_neg
    rfl
  refine ⟨?_, hsc, hfc, hfb, ?_, ?_, ?_, ?_⟩
  · rw [distribute_ok env n hw hc hn]
  · rw [runStatus_allSucceeded_iff_counts, hsc, htbf, countSuccesses_eq_iff]
  · rw [runStatus_allFailed_iff_counts, hsc, htbf]
    constructor
    · rintro ⟨_, h0⟩
      exact (countSuccesses_zero_iff env _).mp h0
    · intro hall
      have h0 := (countSuccesses_zero_iff env _).mpr hall
      exact ⟨by omega, h0⟩
  · rw [runStatus_partial_iff_counts, hsc, htbf, countSuccesses_pos_iff, hne]
    tauto
  · rw [hfb]
    intro e he
    rw [List.mem_filterMap] at he
    obtain ⟨i, hi, hfe⟩ := he
    rw [List.mem_range] at hi
    refine ⟨i, hi, ?_⟩
    unfold failEntry at hfe
    cases hs : statusOf env i with
    | success => rw [hs] at hfe; exact absurd hfe (by simp)
    | failed msg =>
      rw [hs] at hfe
      simp only [Option.some.injEq] at hfe
      subst hfe
      exact ⟨rfl, rfl⟩

/-- Witness for C2 (amended) on a concrete Success, Failed, Success run. -/
theorem c2_summary_classification_witness :
    (distributeRewardsInBatches envMixed).result =
      RunResult.summary (runSummaryOf envMixed 250) :=
  (c2_summary_classification envMixed 250 rfl rfl (by decide) (by decide)).1

/-- C2 counterexample: in a run with outcomes Success, Failed, Success
(250 users, batch size 100), the summary classifies the run as partial
success with counts 2 and 1, but the failed batch is reported as
`{batch: 2, error: "boom"}` — the 1-based batch number, not the range
bounds, which for that batch are `[100, 199]`. -/
theorem c2_counterexample :
    (distributeRewardsInBatches envMixed).result =
      RunResult.summary ⟨true, 3, 2, 1, [⟨2, "boom"⟩], "2/3 batches completed successfully"⟩
    ∧ rangeOf 100 250 1 = ⟨100, 199⟩
    ∧ (∀ e ∈ [(⟨2, "boom"⟩ : FailedBatch)], e.batch ≠ 100 ∧ e.batch ≠ 199) := by
  refine ⟨by decide, by decide, by decide⟩

/-- C3: the orchestrator always resolves with a structured result: a
missing Web3 connection or a failed count query produce the structured
fatal object via the outer catch, and once the count query succeeds no
per-batch error can escape as a thrown exception. -/
theorem c3_structured_results (env : Env) :
    (env.web3Initialized = false →
      distributeRewardsInBatches env =
        ⟨RunResult.fatal "Web3 not initialized. Cannot proceed with distribution.", 0, 0, []⟩)
    ∧ (∀ e, env.web3Initialized = true → env.getUSersLengh = Except.error e →
      distributeRewardsInBatches env =
        ⟨RunResult.fatal ("Contract connection failed: " ++ e), 0, 0, []⟩)
    ∧ (∀ n, env.web3Initialized = true → env.getUSersLengh = Except.ok n →
      innerOk env = true)
    ∧ (∀ n, env.web3Initialized = true → env.getUSersLengh = Except.ok n →
      ∀ e, ¬ ((distributeRewardsInBatches env).result = RunResult.fatal e)) := by
  refine ⟨?_, ?_, ?_, ?_⟩
  · intro hw
    unfold distributeRewardsInBatches runInner
    rw [hw]
    simp
  · intro e hw hc
    unfold distributeRewardsInBatches runInner
    rw [hw, hc]
    simp
  · intro n hw hc
    unfold innerOk runInner
    rw [hw, hc]
    rcases Nat.eq_zero_or_pos n with h0 | hpos
    · simp [h0]
    · have hne : ¬ (n = 0) := by omega
      simp [hne]
  · intro n hw hc e
    rcases Nat.eq_zero_or_pos n with h0 | hpos
    · subst h0
      rw [distribute_zero env hw hc]
      simp
    · rw [distribute_ok env n hw hc hpos]
      simp

/-- Witness for C3 at three concrete environments. -/
theorem c3_structured_results_witness :
    distributeRewardsInBatches envNoWeb3 =
      ⟨RunResult.fatal "Web3 not initialized. Cannot proceed with distribution.", 0, 0, []⟩
    ∧ distributeRewardsInBatches envCountFail =
      ⟨RunResult.fatal ("Contract connection failed: " ++ "timeout"), 0, 0, []⟩
    ∧ innerOk envMixed = true :=
  ⟨(c3_structured_results envNoWeb3).1 rfl,
   (c3_structured_results envCountFail).2.1 "timeout" rfl rfl,
   (c3_structured_results envMixed).2.2.1 250 rfl rfl⟩

/-- C4 (amended): the cost ceiling used for submission is
`(gasEstimate * 120) / 100` with truncating (floor) BigInt division —
a 20% buffer rounded down, not `ceil(estimatedCost * 1.20)`. -/
theorem c4_gas_buffer_floor (b : BatchEnv) (g : Nat)
    (h : b.gasEstimate = Except.ok g) :
    (executeBatch b).gasLimit = some (g * 120 / 100) := by
  unfold executeBatch
  rw [h]
  cases ht : b.submitTx with
  | error e2 => simp
  | ok u =>
    cases hr : b.receiptStatus with
    | error e3 => simp
    | ok status => by_cases hst : status = 1 <;> simp [hst]

/-- Witness for C4 (amended) at a successful batch with estimate 21000. -/
theorem c4_gas_buffer_floor_witness :
    (executeBatch successBatch).gasLimit = some (21000 * 120 / 100) :=
  c4_gas_buffer_floor successBatch 21000 rfl

/-- C4 counterexample: for estimate 101 the code submits with gas limit
`101 * 120 / 100 = 121` (floor), while `ceil(101 * 1.20) = 122`. -/
theorem c4_counterexample :
    (executeBatch ⟨Except.ok 101, Except.ok (), Except.ok 1⟩).gasLimit = some 121
    ∧ specBufferedCost 101 = 122
    ∧ ¬ ((121 : Nat) = 122) := by
  refine ⟨by decide, by decide, by decide⟩

/-- C5: a batch whose gas estimation fails is recorded as `Failed` with
the estimation error and issues zero submission calls. -/
theorem c5_estimation_failure_no_submission (b : BatchEnv) (e : String)
    (h : b.gasEstimate = Except.error e) :
    executeBatch b = ⟨BatchStatus.failed e, 0, none, false⟩ := by
  unfold executeBatch
  rw [h]

/-- Witness for C5 at a concrete estimation failure. -/
theorem c5_estimation_failure_no_submission_witness :
    executeBatch estimFailBatch = ⟨BatchStatus.failed "boom", 0, none, false⟩ :=
  c5_estimation_failure_no_submission estimFailBatch "boom" rfl

/-- C6 (amended): the 5000 ms rate-limiting wait happens after batch `i`
iff `i` is not the last batch and the iteration reached the wait, i.e.
the batch's submission and confirmation completed without a thrown error
(outcome `Success`, or `Failed` by an on-chain revert); a batch failing
via a gas-estimation error or a thrown submission/confirmation error
skips the wait via `continue`. -/
theorem c6_wait_after_completed (env : Env) (n : Nat)
    (hw : env.web3Initialized = true) (hc : env.getUSersLengh = Except.ok n)
    (hn : 0 < n) :
    ∀ i, ((i, 5000) ∈ (distributeRewardsInBatches env).waits ↔
      (i < totalBatchesOf n env.batchSize - 1
        ∧ (executeBatch (env.batches i)).reachedRateLimit = true)) := by
  intro i
  rw [distribute_ok env n hw hc hn]
  show (i, 5000) ∈ (stOf env n).waits ↔ _
  rw [stOf_waits]
  constructor
  · intro hmem
    rw [List.mem_map] at hmem
    obtain ⟨a, ha, heq⟩ := hmem
    have hai : a = i := by
      simpa using congrArg Prod.fst heq
    subst hai
    rw [List.mem_filter, List.mem_range] at ha
    obtain ⟨hrange, hwaited⟩ := ha
    unfold waitedB at hwaited
    rw [Bool.and_eq_true, decide_eq_true_iff] at hwaited
    exact ⟨hwaited.2, hwaited.1⟩
  · rintro ⟨h1, h2⟩
    rw [List.mem_map]
    refine ⟨i, ?_, rfl⟩
    rw [List.mem_filter, List.mem_range]
    have hi : i < totalBatchesOf n env.batchSize :=
      Nat.lt_of_lt_of_le h1 (Nat.sub_le _ 1)
    refine ⟨hi, ?_⟩
    unfold waitedB
    rw [Bool.and_eq_true, decide_eq_true_iff]
    exact ⟨h2, h1⟩

/-- Witness for C6 (amended): in the mixed run the wait does occur after
batch 0, which completed without a thrown error. -/
theorem c6_wait_after_completed_witness :
    (0, 5000) ∈ (distributeRewardsInBatches envMixed).waits :=
  (c6_wait_after_completed envMixed 250 rfl rfl (by decide) 0).mpr
    ⟨by decide, by decide⟩

/-- C6 counterexample: 200 users in 2 batches, both failing gas
estimation: batch 0 is not the last batch, yet no 5-second wait is
performed after it — the `continue` in the estimation-failure path skips
the rate-limiting wait. -/
theorem c6_counterexample :
    (distributeRewardsInBatches envEstimFail).result =
      RunResult.summary ⟨false, 2, 0, 2, [⟨1, "boom"⟩, ⟨2, "boom"⟩],
        "0/2 batches completed successfully"⟩
    ∧ (distributeRewardsInBatches envEstimFail).waits = []
    ∧ ¬ ((0, 5000) ∈ (distributeRewardsInBatches envEstimFail).waits) := by
  refine ⟨by decide, by decide, by decide⟩

/-- C7: a run whose count query returns zero users resolves with the
vacuously successful early return, zero batches attempted and zero
submission calls. -/
theorem c7_zero_users (env : Env)
    (hw : env.web3Initialized = true) (hc : env.getUSersLengh = Except.ok 0) :
    distributeRewardsInBatches env = ⟨RunResult.noUsers, 0, 0, []⟩
    ∧ RunResult.successFlag (distributeRewardsInBatches env).result = true
    ∧ (distributeRewardsInBatches env).attempted = 0
    ∧ (distributeRewardsInBatches env).submitCalls = 0 := by
  have h := distribute_zero env hw hc
  rw [h]
  exact ⟨rfl, rfl, rfl, rfl⟩

/-- Witness for C7 at a concrete zero-user environment. -/
theorem c7_zero_users_witness :
    distributeRewardsInBatches envZero = ⟨RunResult.noUsers, 0, 0, []⟩ :=
  (c7_zero_users envZero rfl rfl).1

/-- C10: in every run that proceeds past the count query, each batch index
is counted exactly once as a success or a failure — the summary satisfies
`successCount + failureCount = totalBatches` — and the failed-batches
list has exactly `failureCount` entries. -/
theorem c10_counts_invariant (env : Env) (n : Nat)
    (hw : env.web3Initialized = true) (hc : env.getUSersLengh = Except.ok n)
    (hn : 0 < n) :
    (distributeRewardsInBatches env).result = RunResult.summary (runSummaryOf env n)
    ∧ (runSummaryOf env n).successCount + (runSummaryOf env n).failureCount
        = (runSummaryOf env n).totalBatches
    ∧ (runSummaryOf env n).failedBatches.length = (runSummaryOf env n).failureCount := by
  refine ⟨?_, ?_, ?_⟩
  · rw [distribute_ok env n hw hc hn]
  · have hsc : (runSummaryOf env n).successCount
        = countSuccesses env (totalBatchesOf n env.batchSize) := by
      unfold runSummaryOf mkSummary
      exact stOf_successCount env n
    have hfc : (runSummaryOf env n).failureCount
        = countFailures env (totalBatchesOf n env.batchSize) := by
      unfold runSummaryOf mkSummary
      exact stOf_failureCount env n
    rw [hsc, hfc]
    exact countSuccesses_add_countFailures env _
  · have hfb : (runSummaryOf env n).failedBatches
        = (List.range (totalBatchesOf n env.batchSize)).filterMap (failEntry env) := by
      unfold runSummaryOf mkSummary
      exact stOf_failedBatches env n
    have hfc : (runSummaryOf env n).failureCount
        = countFailures env (totalBatchesOf n env.batchSize) := by
      unfold runSummaryOf mkSummary
      exact stOf_failureCount env n
    rw [hfb, hfc, lengthFilterMapFailEntry]
    rfl

/-- Witness for C10 on the concrete mixed run. -/
theorem c10_counts_invariant_witness :
    (runSummaryOf envMixed 250).successCount + (runSummaryOf envMixed 250).failureCount
      = (runSummaryOf envMixed 250).totalBatches :=
  (c10_counts_invariant envMixed 250 rfl rfl (by decide)).2.1

/-- C8 counterexample: with `BATCH_SIZE` configured as `-5`, `getConfig`
does not fail with an `InvalidConfiguration` error: it resolves the batch
size to the default `100` and the process proceeds. -/
theorem c8_counterexample :
    getConfigBatchSize (some (-5)) = Except.ok 100 := rfl

/-- C8 (amended): for every configured `batchSize ≤ 0` (and for an
unparseable value) `getConfig` logs a warning and substitutes the default
batch size 100; it never raises an error, and planning never proceeds
with the non-positive value. -/
theorem c8_batchsize_defaulted (v : Int) (hv : v ≤ 0) :
    resolveBatchSize (some v) = 100
    ∧ getConfigBatchSize (some v) = Except.ok 100 := by
  have h : resolveBatchSize (some v) = 100 := by
    unfold resolveBatchSize
    by_cases h0 : v = 0
    · subst h0
      rfl
    · simp only [h0, if_false]
      rw [if_pos (Or.inl (by omega))]
  refine ⟨h, ?_⟩
  unfold getConfigBatchSize
  rw [h]

/-- Witness for C8 (amended) at configured batch size -5. -/
theorem c8_batchsize_defaulted_witness :
    resolveBatchSize (some (-5)) = 100
    ∧ getConfigBatchSize (some (-5)) = Except.ok 100 :=
  c8_batchsize_defaulted (-5) (by decide)

/-! Helper lemmas about the connection bootstrap. -/

theorem initWeb3Go_attempts_le (outcomes : Nat → Bool) :
    ∀ k r, (initWeb3Go outcomes r k).attempts ≤ k + 1 := by
  intro k
  induction k with
  | zero =>
    intro r
    unfold initWeb3Go
    by_cases h : outcomes r = true <;> simp [h]
  | succ m ih =>
    intro r
    unfold initWeb3Go
    by_cases h : outcomes r = true
    · simp [h]
    · simp only [h, Bool.false_eq_true, if_false]
      have := ih (r + 1)
      omega

theorem initWeb3Go_delays_eq (outcomes : Nat → Bool) :
    ∀ k r, ∃ m, m ≤ k ∧ (initWeb3Go outcomes r k).delays
      = (List.range m).map (fun j => 2 ^ (r + j) * 1000) := by
  intro k
  induction k with
  | zero =>
    intro r
    refine ⟨0, Nat.le_refl 0, ?_⟩
    unfold initWeb3Go
    by_cases h : outcomes r = true <;> simp [h]
  | succ m ih =>
    intro r
    unfold initWeb3Go
    by_cases h : outcomes r = true
    · exact ⟨0, by omega, by simp [h]⟩
    · obtain ⟨m0, hm0, hdel⟩ := ih (r + 1)
      refine ⟨m0 + 1, by omega, ?_⟩
      simp only [h, Bool.false_eq_true, if_false]
      rw [hdel, List.range_succ_eq_map, List.map_cons, List.map_map]
      have hfun : ((fun j => 2 ^ (r + j) * 1000) ∘ Nat.succ)
          = (fun j => 2 ^ (r + 1 + j) * 1000) := by
        funext a
        show 2 ^ (r + (a + 1)) * 1000 = 2 ^ (r + 1 + a) * 1000
        rw [show r + (a + 1) = r + 1 + a by omega]
      rw [hfun]
      norm_num

theorem initWeb3Go_delays_getElem (outcomes : Nat → Bool) (k r j : Nat)
    (h : j < (initWeb3Go outcomes r k).delays.length) :
    (initWeb3Go outcomes r k).delays[j] = 2 ^ (r + j) * 1000 := by
  obtain ⟨m, _, hdel⟩ := initWeb3Go_delays_eq outcomes k r
  simp only [hdel, List.getElem_map, List.getElem_range]

theorem initWeb3Go_delays_sum_le (outcomes : Nat → Bool) :
    ∀ k r, (initWeb3Go outcomes r k).delays.sum ≤ (2 ^ (r + k) - 2 ^ r) * 1000 := by
  intro k
  induction k with
  | zero =>
    intro r
    unfold initWeb3Go
    by_cases h : outcomes r = true <;> simp [h]
  | succ m ih =>
    intro r
    unfold initWeb3Go
    by_cases h : outcomes r = true
    · simp [h]
    · simp only [h, Bool.false_eq_true, if_false, List.sum_cons]
      have hrec := ih (r + 1)
      have hpow1 : (2 : Nat) ^ (r + 1) = 2 ^ r * 2 := pow_succ 2 r
      have hpow2 : (2 : Nat) ^ (r + 1) ≤ 2 ^ (r + 1 + m) :=
        Nat.pow_le_pow_right (by omega) (by omega)
      have heq : r + 1 + m = r + (m + 1) := by omega
      rw [heq] at hrec hpow2
      omega

theorem initWeb3Go_all_fail (outcomes : Nat → Bool)
    (hall : ∀ i, outcomes i = false) :
    ∀ k r, (initWeb3Go outcomes r k).connected = false := by
  intro k
  induction k with
  | zero =>
    intro r
    unfold initWeb3Go
    rw [hall r]
    simp
  | succ m ih =>
    intro r
    unfold initWeb3Go
    rw [hall r]
    simp only [Bool.false_eq_true, if_false]
    exact ih (r + 1)

/-- C9: with the default `maxRetries = 3`, the connection bootstrap makes
at most 4 total attempts, the backoff slept after the j-th failed attempt
is `2^j * 1000` milliseconds (i.e. `2^attempt` seconds), the total
backoff time is bounded by 7000 ms, and if every attempt fails it
returns the terminal failure `false`. -/
theorem c9_bootstrap_bounded (outcomes : Nat → Bool) :
    (initWeb3 outcomes 3).attempts ≤ 4
    ∧ (∀ j, (h : j < (initWeb3 outcomes 3).delays.length) →
        (initWeb3 outcomes 3).delays[j] = 2 ^ j * 1000)
    ∧ (initWeb3 outcomes 3).delays.sum ≤ 7000
    ∧ ((∀ i, outcomes i = false) → (initWeb3 outcomes 3).connected = false) := by
  refine ⟨initWeb3Go_attempts_le outcomes 3 0, ?_, ?_, ?_⟩
  · intro j h
    have := initWeb3Go_delays_getElem outcomes 3 0 j h
    rwa [Nat.zero_add] at this
  · have := initWeb3Go_delays_sum_le outcomes 3 0
    norm_num at this
    exact this
  · intro hall
    exact initWeb3Go_all_fail outcomes hall 3 0

/-- Witness for C9: all attempts failing gives the terminal failure within
the attempt bound. -/
theorem c9_bootstrap_bounded_witness :
    (initWeb3 (fun _ => false) 3).connected = false
    ∧ (initWeb3 (fun _ => false) 3).attempts ≤ 4 :=
  ⟨(c9_bootstrap_bounded (fun _ => false)).2.2.2 (fun _ => rfl),
   (c9_bootstrap_bounded (fun _ => false)).1⟩

end SafeMintServer
